import Mathlib

/-!
Shallow embedding of the query lifecycle tracker of `src/queries/store.ts`
(`QueryStore`) together with the auxiliary types it uses.  The TypeScript
store is a mutable keyed object `{[queryId: string]: QueryStoreValue}`;
here it is an association list passed explicitly, and operations that can
throw at runtime (the query-string consistency check, and a field write
through an absent linked record) return `Except`.
-/

namespace ApolloStore

/-- Modelled from the spec: the parameter values inside a `variables'`
mapping are caller data (the source imports `isEqual` from
`util/isEqual`, which is not part of this excerpt); values are modelled
as scalar leaves. -/
inductive Value where
  | vInt : Int → Value
  | vStr : String → Value
deriving DecidableEq, Repr

/-- A `variables'` object: an unordered key-to-value mapping, modelled as
an association list of fields. -/
abbrev Variables := List (String × Value)

/-- First field with the given key, mirroring JavaScript property lookup. -/
def lookupField (k : String) : Variables → Option Value
  | [] => none
  | (k2, v) :: rest => if k2 = k then some v else lookupField k rest

/-- Modelled from the spec: `util/isEqual` is not in this excerpt; the
spec asks for deep, order-insensitive equality of the parameter mappings,
which for scalar-leaved mappings is mutual key-by-key agreement. -/
def isEqual (a b : Variables) : Bool :=
  a.all (fun kv => decide (lookupField kv.1 b = some kv.2)) &&
  b.all (fun kv => decide (lookupField kv.1 a = some kv.2))

/-- Modelled from the spec: the `NetworkStatus` enum of
`queries/networkStatus.ts` is not in this excerpt; the spec lists these
seven mutually exclusive status values. -/
inductive NetworkStatus where
  | loading
  | setVariables
  | fetchMore
  | refetch
  | poll
  | ready
  | error
deriving DecidableEq, Repr

/-- The parsed query document; its contents are never inspected by the
store, so it is modelled as an opaque token. -/
abbrev DocumentNode := Nat

/-- A GraphQL result error (carried data, never inspected). -/
abbrev GQLError := Nat

/-- A network / transport error value (carried data, never inspected). -/
abbrev NError := Nat

/-- Caller-supplied metadata (carried data, never inspected). -/
abbrev Metadata := Nat

/-- One lifecycle record: `QueryStoreValue` of `src/queries/store.ts`. -/
structure QueryStoreValue where
  queryString : String
  document : DocumentNode
  variables' : Variables
  previousVariables : Option Variables
  networkStatus : NetworkStatus
  networkError : Option NError
  graphQLErrors : List GQLError
  metadata : Metadata
deriving DecidableEq, Repr

/-- The store's keyed table `{[queryId: string]: QueryStoreValue}`. -/
abbrev Store := List (String × QueryStoreValue)

/-- The two runtime failures of the store's operations: the explicit
`throw new Error` on a query-string mismatch in `initQuery`, and the
TypeError raised by writing a field of `this.store[fetchMoreForQueryId]`
when that record is absent. -/
inductive StoreError where
  | queryStringMismatch
  | absentLinkedRecord
deriving DecidableEq, Repr

/-- Operation `get(queryId)`: property read on the keyed table. -/
def get (s : Store) (queryId : String) : Option QueryStoreValue :=
  match s with
  | [] => none
  | (k, v) :: rest => if k = queryId then some v else get rest queryId

/-- Assignment `this.store[queryId] = v`: overwrite the existing entry or add one. -/
def storeSet (s : Store) (queryId : String) (v : QueryStoreValue) : Store :=
  match s with
  | [] => [(queryId, v)]
  | (k, w) :: rest =>
      if k = queryId then (queryId, v) :: rest else (k, w) :: storeSet rest queryId v

/-- Deletion `delete this.store[queryId]`. -/
def storeDelete (s : Store) (queryId : String) : Store :=
  match s with
  | [] => []
  | (k, w) :: rest =>
      if k = queryId then storeDelete rest queryId else (k, w) :: storeDelete rest queryId

/-- The query-string consistency guard at the top of `initQuery`:
true when a previous record exists and its `queryString` differs. -/
def queryStringMismatchB (previousQuery : Option QueryStoreValue) (queryString : String) : Bool :=
  match previousQuery with
  | some pq => decide (pq.queryString ≠ queryString)
  | none => false

/-- The `isSetVariables` flag of `initQuery`: set exactly when previous
variables' are to be remembered (`storePreviousVariables` requested, a
previous record exists, it is not `loading`, and the variables' differ). -/
def computeIsSetVariables (previousQuery : Option QueryStoreValue)
    (storePreviousVariables : Bool) (variables' : Variables) : Bool :=
  match previousQuery with
  | some pq =>
      storePreviousVariables && decide (pq.networkStatus ≠ NetworkStatus.loading) &&
        !(isEqual pq.variables' variables')
  | none => false

/-- The `newNetworkStatus` selection of `initQuery`, including its dead
second `isPoll` test. -/
def computeNetworkStatus (isSetVariables : Bool) ( isPoll : Bool) ( isRefetch : Bool) :
    NetworkStatus :=
  if isSetVariables then NetworkStatus.setVariables
  else if isPoll then NetworkStatus.poll
  else if isRefetch then NetworkStatus.refetch
  else if isPoll then NetworkStatus.poll
  else NetworkStatus.loading

/-- The fresh record written by `initQuery` (lines 66-75 of the source):
new query string, document, variables' and metadata, cleared error
fields, the captured previous variables' when `isSetVariables`, and the
selected status. -/
def initRecord (previousQuery : Option QueryStoreValue) (queryString : String)
    (document : DocumentNode) (storePreviousVariables : Bool) (variables' : Variables)
    ( isPoll : Bool) ( isRefetch : Bool) (metadata : Metadata) : QueryStoreValue :=
  let isSetVariables := computeIsSetVariables previousQuery storePreviousVariables variables'
  { queryString := queryString
    document := document
    variables' := variables'
    previousVariables :=
      if isSetVariables then previousQuery.map (fun pq => pq.variables') else none
    networkError := none
    graphQLErrors := []
    networkStatus := computeNetworkStatus isSetVariables isPoll isRefetch
    metadata := metadata }

/-- Operation `initQuery`: consistency guard, `setVariables` detection, status
selection, wholesale record replacement, then the optional linked
`fetchMore` propagation. -/
def initQuery (s : Store) (queryId : String) (queryString : String) (document : DocumentNode)
    (storePreviousVariables : Bool) (variables' : Variables) ( isPoll : Bool) ( isRefetch : Bool)
    (metadata : Metadata) (fetchMoreForQueryId : Option String) : Except StoreError Store :=
  let previousQuery := get s queryId
  if queryStringMismatchB previousQuery queryString then
    Except.error StoreError.queryStringMismatch
  else
    let s1 := storeSet s queryId
      (initRecord previousQuery queryString document storePreviousVariables variables'
        isPoll isRefetch metadata)
    match fetchMoreForQueryId with
    | some fid =>
        match get s1 fid with
        | some fq => Except.ok (storeSet s1 fid { fq with networkStatus := NetworkStatus.fetchMore })
        | none => Except.error StoreError.absentLinkedRecord
    | none => Except.ok s1

/-- Modelled from the spec: `graphQLResultHasError` and the GraphQL
`ExecutionResult` shape live in files outside this excerpt; per the spec,
mark-success receives the result's error list together with a `hasErrors`
flag. -/
structure ExecResult where
  errors : List GQLError
  hasErrors : Bool
deriving DecidableEq, Repr

/-- Operation `markQueryResult`: no-op on an untracked id; otherwise clear
`networkError` and `previousVariables`, store the result errors exactly
when the result has errors, set status `ready`, and set the linked
record's status to `ready` when a linked id is supplied. -/
def markQueryResult (s : Store) (queryId : String) (result : ExecResult)
    (fetchMoreForQueryId : Option String) : Except StoreError Store :=
  match get s queryId with
  | none => Except.ok s
  | some q =>
      let s1 := storeSet s queryId { q with
        networkError := none
        graphQLErrors := if result.hasErrors then result.errors else []
        previousVariables := none
        networkStatus := NetworkStatus.ready }
      match fetchMoreForQueryId with
      | some fid =>
          match get s1 fid with
          | some fq => Except.ok (storeSet s1 fid { fq with networkStatus := NetworkStatus.ready })
          | none => Except.error StoreError.absentLinkedRecord
      | none => Except.ok s1

/-- Operation `markQueryError`: no-op on an untracked id; otherwise store the
network error and set status `error`, mirrored onto the linked record
when a linked id is supplied. -/
def markQueryError (s : Store) (queryId : String) (error : NError)
    (fetchMoreForQueryId : Option String) : Except StoreError Store :=
  match get s queryId with
  | none => Except.ok s
  | some q =>
      let s1 := storeSet s queryId { q with
        networkError := some error
        networkStatus := NetworkStatus.error }
      match fetchMoreForQueryId with
      | some fid =>
          match get s1 fid with
          | some fq =>
              Except.ok (storeSet s1 fid { fq with
                networkError := some error
                networkStatus := NetworkStatus.error })
          | none => Except.error StoreError.absentLinkedRecord
      | none => Except.ok s1

/-- Operation `markQueryResultClient`: no-op on an untracked id; otherwise clear
`networkError` and `previousVariables` and set status `ready` when
complete, `loading` otherwise. -/
def markQueryResultClient (s : Store) (queryId : String) (complete : Bool) : Store :=
  match get s queryId with
  | none => s
  | some q =>
      storeSet s queryId { q with
        networkError := none
        previousVariables := none
        networkStatus := if complete then NetworkStatus.ready else NetworkStatus.loading }

/-- Operation `stopQuery`: unconditionally delete the record. -/
def stopQuery (s : Store) (queryId : String) : Store :=
  storeDelete s queryId

/-- Operation `reset`: force status `loading` on every tracked id that belongs to
`observableQueryIds`, leaving every other entry untouched. -/
def reset (s : Store) (observableQueryIds : List String) : Store :=
  s.map (fun kv =>
    if observableQueryIds.contains kv.1 then
      (kv.1, { kv.2 with networkStatus := NetworkStatus.loading })
    else kv)

/-- One tracker call, for reasoning about call sequences. -/
inductive Op where
  | init (queryId : String) (queryString : String) (document : DocumentNode)
      (storePreviousVariables : Bool) (variables' : Variables) ( isPoll : Bool)
      ( isRefetch : Bool) (metadata : Metadata) (fetchMoreForQueryId : Option String)
  | result (queryId : String) (res : ExecResult) (fetchMoreForQueryId : Option String)
  | err (queryId : String) (error : NError) (fetchMoreForQueryId : Option String)
  | clientResult (queryId : String) (complete : Bool)
  | stop (queryId : String)
  | resetOp (activeIds : List String)
deriving Repr

/-- Apply one tracker call to a store. -/
def applyOp (s : Store) : Op → Except StoreError Store
  | .init qid qs doc spv vars ip ir md fm => initQuery s qid qs doc spv vars ip ir md fm
  | .result qid res fm => markQueryResult s qid res fm
  | .err qid e fm => markQueryError s qid e fm
  | .clientResult qid c => Except.ok (markQueryResultClient s qid c)
  | .stop qid => Except.ok (stopQuery s qid)
  | .resetOp ids => Except.ok (reset s ids)

/-- Run a sequence of tracker calls from a starting store. -/
def runOps (s : Store) : List Op → Except StoreError Store
  | [] => Except.ok s
  | op :: rest =>
      match applyOp s op with
      | Except.ok s1 => runOps s1 rest
      | Except.error e => Except.error e

/-- The `fetchMore` propagation target of a call, when it has one. -/
def opFetchMoreTarget : Op → Option String
  | .init _ _ _ _ _ _ _ _ fm => fm
  | _ => none

/-- The status recorded for an id, when the id is tracked. -/
def statusOf (s : Store) (queryId : String) : Option NetworkStatus :=
  (get s queryId).map (fun q => q.networkStatus)

/-- The network error recorded for an id, when the id is tracked. -/
def netErrorOf (s : Store) (queryId : String) : Option (Option NError) :=
  (get s queryId).map (fun q => q.networkError)

/-- The previous variables' recorded for an id, when the id is tracked. -/
def prevVarsOf (s : Store) (queryId : String) : Option (Option Variables) :=
  (get s queryId).map (fun q => q.previousVariables)

/-- The result errors recorded for an id, when the id is tracked. -/
def gqlErrorsOf (s : Store) (queryId : String) : Option (List GQLError) :=
  (get s queryId).map (fun q => q.graphQLErrors)

/-! ### Records and stores used as concrete inputs and updated records -/

/-- The updated base record written by `markQueryResult` on a tracked id. -/
def resultRecord (q : QueryStoreValue) (result : ExecResult) : QueryStoreValue :=
  { q with
    networkError := none
    graphQLErrors := if result.hasErrors then result.errors else []
    previousVariables := none
    networkStatus := NetworkStatus.ready }

/-- The updated base record written by `markQueryError` on a tracked id. -/
def errorRecord (q : QueryStoreValue) (error : NError) : QueryStoreValue :=
  { q with
    networkError := some error
    networkStatus := NetworkStatus.error }

/-- The updated record written by `markQueryResultClient` on a tracked id. -/
def clientRecord (q : QueryStoreValue) (complete : Bool) : QueryStoreValue :=
  { q with
    networkError := none
    previousVariables := none
    networkStatus := if complete then NetworkStatus.ready else NetworkStatus.loading }

/-- A concrete `variables'` object `{x: 1}`. -/
def vx1 : Variables := [("x", Value.vInt 1)]

/-- A concrete `variables'` object `{x: 2}`. -/
def vx2 : Variables := [("x", Value.vInt 2)]

/-- A settled (`ready`) record for query string `"q"` with variables' `{x: 1}`. -/
def recReady : QueryStoreValue :=
  { queryString := "q"
    document := 0
    variables' := vx1
    previousVariables := none
    networkStatus := NetworkStatus.ready
    networkError := none
    graphQLErrors := []
    metadata := 0 }

/-- A store tracking `"a"` with a settled record. -/
def storeA : Store := [("a", recReady)]

/-- A store tracking `"a"` (`ready`) and `"b"` (`error`). -/
def storeAB : Store :=
  [("a", recReady), ("b", { recReady with networkStatus := NetworkStatus.error })]

/-- The store produced by the C3 counterexample call: the fresh record
captured the previous variables', but its status was then overwritten to
`fetchMore` by the linked-id propagation aimed at the same identifier. -/
def storeCx3 : Store :=
  [("a", { queryString := "q"
           document := 0
           variables' := vx2
           previousVariables := some vx1
           networkStatus := NetworkStatus.fetchMore
           networkError := none
           graphQLErrors := []
           metadata := 0 })]

/-- The store produced by the C3 witness call (no linked id). -/
def storeW3 : Store :=
  [("a", { queryString := "q"
           document := 0
           variables' := vx2
           previousVariables := some vx1
           networkStatus := NetworkStatus.setVariables
           networkError := none
           graphQLErrors := []
           metadata := 0 })]

/-- The store produced by the C9 witness call. -/
def storeW9 : Store :=
  [("a", { recReady with networkStatus := NetworkStatus.fetchMore }),
   ("b", { recReady with networkStatus := NetworkStatus.error }),
   ("c", { queryString := "q"
           document := 0
           variables' := vx1
           previousVariables := none
           networkStatus := NetworkStatus.loading
           networkError := none
           graphQLErrors := []
           metadata := 0 })]

/-- The C1 counterexample call sequence: initialize `a`, mark success,
re-initialize with changed variables' (entering `setVariables`), then
mark a network error. -/
def opsCx1 : List Op :=
  [Op.init "a" "q" 0 true vx1 false false 0 none,
   Op.result "a" ⟨[], false⟩ none,
   Op.init "a" "q" 0 true vx2 false false 0 none,
   Op.err "a" 7 none]

/-- The record held for `a` after `opsCx1`. -/
def recCx1 : QueryStoreValue :=
  { queryString := "q"
    document := 0
    variables' := vx2
    previousVariables := some vx1
    networkStatus := NetworkStatus.error
    networkError := some 7
    graphQLErrors := []
    metadata := 0 }

/-! ### Lemmas about the keyed table -/

theorem get_cons (k2 : String) (w : QueryStoreValue) (tl : Store) (k : String) :
    get ((k2, w) :: tl) k = if k2 = k then some w else get tl k := rfl

theorem storeSet_cons (k2 : String) (w : QueryStoreValue) (tl : Store) (k : String)
    (v : QueryStoreValue) :
    storeSet ((k2, w) :: tl) k v =
      if k2 = k then (k, v) :: tl else (k2, w) :: storeSet tl k v := rfl

theorem storeDelete_cons (k2 : String) (w : QueryStoreValue) (tl : Store) (k : String) :
    storeDelete ((k2, w) :: tl) k =
      if k2 = k then storeDelete tl k else (k2, w) :: storeDelete tl k := rfl

theorem reset_cons (k2 : String) (w : QueryStoreValue) (tl : Store) (ids : List String) :
    reset ((k2, w) :: tl) ids =
      (if ids.contains k2 then (k2, { w with networkStatus := NetworkStatus.loading }) else (k2, w))
        :: reset tl ids := rfl

theorem get_storeSet (s : Store) (k : String) (v : QueryStoreValue) (k' : String) :
    get (storeSet s k v) k' = if k' = k then some v else get s k' := by
  induction s with
  | nil =>
      by_cases h : k' = k
      · subst h; simp [storeSet, get_cons]
      · have h' : ¬ k = k' := fun h3 => h h3.symm
        simp [storeSet, get_cons, h, h', get]
  | cons hd tl ih =>
      obtain ⟨k2, w⟩ := hd
      by_cases h2 : k2 = k
      · subst h2
        by_cases h : k' = k2
        · subst h; simp [storeSet_cons, get_cons]
        · have h' : ¬ k2 = k' := fun h3 => h h3.symm
          simp [storeSet_cons, get_cons, h, h']
      · by_cases h : k2 = k'
        · have h' : ¬ k' = k := fun h3 => h2 (h.trans h3)
          simp [storeSet_cons, get_cons, h2, h, h', ih]
        · simp [storeSet_cons, get_cons, h2, h, ih]

theorem get_storeDelete (s : Store) (k : String) (k' : String) :
    get (storeDelete s k) k' = if k' = k then none else get s k' := by
  induction s with
  | nil =>
      by_cases h : k' = k <;> simp [storeDelete, get, h]
  | cons hd tl ih =>
      obtain ⟨k2, w⟩ := hd
      by_cases h2 : k2 = k
      · subst h2
        by_cases h : k' = k2
        · subst h; simp [storeDelete_cons, get_cons, ih]
        · have h' : ¬ k2 = k' := fun h3 => h h3.symm
          simp [storeDelete_cons, get_cons, h, h', ih]
      · by_cases h : k2 = k'
        · have h' : ¬ k' = k := fun h3 => h2 (h.trans h3)
          simp [storeDelete_cons, get_cons, h2, h, h', ih]
        · simp [storeDelete_cons, get_cons, h2, h, ih]

theorem storeDelete_of_get_none (s : Store) (k : String) (h : get s k = none) :
    storeDelete s k = s := by
  induction s with
  | nil => rfl
  | cons hd tl ih =>
      obtain ⟨k2, w⟩ := hd
      rw [get_cons] at h
      by_cases h2 : k2 = k
      · rw [if_pos h2] at h
        exact absurd h (by simp)
      · rw [if_neg h2] at h
        rw [storeDelete_cons, if_neg h2, ih h]

theorem get_reset (s : Store) (ids : List String) (k : String) :
    get (reset s ids) k =
      (get s k).map (fun q =>
        if ids.contains k then { q with networkStatus := NetworkStatus.loading } else q) := by
  induction s with
  | nil => rfl
  | cons hd tl ih =>
      obtain ⟨k2, w⟩ := hd
      rw [reset_cons]
      by_cases hc : ids.contains k2
      · rw [if_pos hc]
        have hm : k2 ∈ ids := by simpa using hc
        by_cases h : k2 = k
        · subst h
          simp [get_cons, hm]
        · simp [get_cons, h, ih]
      · rw [if_neg hc]
        have hm : k2 ∉ ids := by simpa using hc
        by_cases h : k2 = k
        · subst h
          simp [get_cons, hm]
        · simp [get_cons, h, ih]

/-! ### Unfolding lemmas for the operations -/

theorem initQuery_mismatch (s : Store) (qid qs : String) (doc : DocumentNode) (spv : Bool)
    (vars : Variables) (ip ir : Bool) (md : Metadata) (fm : Option String)
    (hguard : queryStringMismatchB (get s qid) qs = true) :
    initQuery s qid qs doc spv vars ip ir md fm = Except.error StoreError.queryStringMismatch := by
  unfold initQuery
  rw [if_pos hguard]

theorem initQuery_ok_none (s : Store) (qid qs : String) (doc : DocumentNode) (spv : Bool)
    (vars : Variables) (ip ir : Bool) (md : Metadata)
    (hguard : queryStringMismatchB (get s qid) qs = false) :
    initQuery s qid qs doc spv vars ip ir md none =
      Except.ok (storeSet s qid (initRecord (get s qid) qs doc spv vars ip ir md)) := by
  unfold initQuery
  rw [if_neg (by simp [hguard])]

theorem initQuery_ok_some (s : Store) (qid qs : String) (doc : DocumentNode) (spv : Bool)
    (vars : Variables) (ip ir : Bool) (md : Metadata) (fid : String) (fq : QueryStoreValue)
    (hguard : queryStringMismatchB (get s qid) qs = false)
    (hfq : get (storeSet s qid (initRecord (get s qid) qs doc spv vars ip ir md)) fid = some fq) :
    initQuery s qid qs doc spv vars ip ir md (some fid) =
      Except.ok (storeSet (storeSet s qid (initRecord (get s qid) qs doc spv vars ip ir md)) fid
        { fq with networkStatus := NetworkStatus.fetchMore }) := by
  unfold initQuery
  rw [if_neg (by simp [hguard])]
  show (match get (storeSet s qid (initRecord (get s qid) qs doc spv vars ip ir md)) fid with
        | some fq =>
            Except.ok (storeSet (storeSet s qid (initRecord (get s qid) qs doc spv vars ip ir md))
              fid { fq with networkStatus := NetworkStatus.fetchMore })
        | none => Except.error StoreError.absentLinkedRecord) = _
  rw [hfq]

theorem initQuery_err_some (s : Store) (qid qs : String) (doc : DocumentNode) (spv : Bool)
    (vars : Variables) (ip ir : Bool) (md : Metadata) (fid : String)
    (hguard : queryStringMismatchB (get s qid) qs = false)
    (hfq : get (storeSet s qid (initRecord (get s qid) qs doc spv vars ip ir md)) fid = none) :
    initQuery s qid qs doc spv vars ip ir md (some fid) =
      Except.error StoreError.absentLinkedRecord := by
  unfold initQuery
  rw [if_neg (by simp [hguard])]
  show (match get (storeSet s qid (initRecord (get s qid) qs doc spv vars ip ir md)) fid with
        | some fq =>
            Except.ok (storeSet (storeSet s qid (initRecord (get s qid) qs doc spv vars ip ir md))
              fid { fq with networkStatus := NetworkStatus.fetchMore })
        | none => Except.error StoreError.absentLinkedRecord) = _
  rw [hfq]

theorem markQueryResult_def (s : Store) (qid : String) (res : ExecResult) (fm : Option String) :
    markQueryResult s qid res fm =
      match get s qid with
      | none => Except.ok s
      | some q =>
          let s1 := storeSet s qid (resultRecord q res)
          match fm with
          | some fid =>
              match get s1 fid with
              | some fq =>
                  Except.ok (storeSet s1 fid { fq with networkStatus := NetworkStatus.ready })
              | none => Except.error StoreError.absentLinkedRecord
          | none => Except.ok s1 := rfl

theorem markQueryError_def (s : Store) (qid : String) (e : NError) (fm : Option String) :
    markQueryError s qid e fm =
      match get s qid with
      | none => Except.ok s
      | some q =>
          let s1 := storeSet s qid (errorRecord q e)
          match fm with
          | some fid =>
              match get s1 fid with
              | some fq => Except.ok (storeSet s1 fid (errorRecord fq e))
              | none => Except.error StoreError.absentLinkedRecord
          | none => Except.ok s1 := rfl

theorem markQueryResultClient_def (s : Store) (qid : String) (complete : Bool) :
    markQueryResultClient s qid complete =
      match get s qid with
      | none => s
      | some q => storeSet s qid (clientRecord q complete) := rfl

theorem markQueryResult_untracked (s : Store) (qid : String) (res : ExecResult)
    (fm : Option String) (hq : get s qid = none) :
    markQueryResult s qid res fm = Except.ok s := by
  unfold markQueryResult
  rw [hq]

theorem markQueryResult_tracked_none (s : Store) (qid : String) (res : ExecResult)
    (q : QueryStoreValue) (hq : get s qid = some q) :
    markQueryResult s qid res none = Except.ok (storeSet s qid (resultRecord q res)) := by
  unfold markQueryResult
  rw [hq]
  rfl

theorem markQueryResult_tracked_some (s : Store) (qid : String) (res : ExecResult)
    (q : QueryStoreValue) (fid : String) (fq : QueryStoreValue) (hq : get s qid = some q)
    (hg : get (storeSet s qid (resultRecord q res)) fid = some fq) :
    markQueryResult s qid res (some fid) =
      Except.ok (storeSet (storeSet s qid (resultRecord q res)) fid
        { fq with networkStatus := NetworkStatus.ready }) := by
  unfold markQueryResult
  rw [hq]
  show (match get (storeSet s qid (resultRecord q res)) fid with
        | some fq =>
            Except.ok (storeSet (storeSet s qid (resultRecord q res)) fid
              { fq with networkStatus := NetworkStatus.ready })
        | none => Except.error StoreError.absentLinkedRecord) = _
  rw [hg]

theorem markQueryResult_tracked_absent (s : Store) (qid : String) (res : ExecResult)
    (q : QueryStoreValue) (fid : String) (hq : get s qid = some q)
    (hg : get (storeSet s qid (resultRecord q res)) fid = none) :
    markQueryResult s qid res (some fid) = Except.error StoreError.absentLinkedRecord := by
  unfold markQueryResult
  rw [hq]
  show (match get (storeSet s qid (resultRecord q res)) fid with
        | some fq =>
            Except.ok (storeSet (storeSet s qid (resultRecord q res)) fid
              { fq with networkStatus := NetworkStatus.ready })
        | none => Except.error StoreError.absentLinkedRecord) = _
  rw [hg]

theorem markQueryError_untracked (s : Store) (qid : String) (e : NError) (fm : Option String)
    (hq : get s qid = none) :
    markQueryError s qid e fm = Except.ok s := by
  unfold markQueryError
  rw [hq]

theorem markQueryError_tracked_none (s : Store) (qid : String) (e : NError)
    (q : QueryStoreValue) (hq : get s qid = some q) :
    markQueryError s qid e none = Except.ok (storeSet s qid (errorRecord q e)) := by
  unfold markQueryError
  rw [hq]
  rfl

theorem markQueryError_tracked_some (s : Store) (qid : String) (e : NError)
    (q : QueryStoreValue) (fid : String) (fq : QueryStoreValue) (hq : get s qid = some q)
    (hg : get (storeSet s qid (errorRecord q e)) fid = some fq) :
    markQueryError s qid e (some fid) =
      Except.ok (storeSet (storeSet s qid (errorRecord q e)) fid (errorRecord fq e)) := by
  unfold markQueryError
  rw [hq]
  show (match get (storeSet s qid (errorRecord q e)) fid with
        | some fq =>
            Except.ok (storeSet (storeSet s qid (errorRecord q e)) fid
              { fq with networkError := some e, networkStatus := NetworkStatus.error })
        | none => Except.error StoreError.absentLinkedRecord) = _
  rw [hg]
  rfl

theorem markQueryError_tracked_absent (s : Store) (qid : String) (e : NError)
    (q : QueryStoreValue) (fid : String) (hq : get s qid = some q)
    (hg : get (storeSet s qid (errorRecord q e)) fid = none) :
    markQueryError s qid e (some fid) = Except.error StoreError.absentLinkedRecord := by
  unfold markQueryError
  rw [hq]
  show (match get (storeSet s qid (errorRecord q e)) fid with
        | some fq =>
            Except.ok (storeSet (storeSet s qid (errorRecord q e)) fid
              { fq with networkError := some e, networkStatus := NetworkStatus.error })
        | none => Except.error StoreError.absentLinkedRecord) = _
  rw [hg]

theorem markQueryResultClient_untracked (s : Store) (qid : String) (complete : Bool)
    (hq : get s qid = none) :
    markQueryResultClient s qid complete = s := by
  unfold markQueryResultClient
  rw [hq]

theorem markQueryResultClient_tracked (s : Store) (qid : String) (complete : Bool)
    (q : QueryStoreValue) (hq : get s qid = some q) :
    markQueryResultClient s qid complete = storeSet s qid (clientRecord q complete) := by
  unfold markQueryResultClient
  rw [hq]
  rfl

theorem computeNetworkStatus_eq_setVariables (b ip ir : Bool) :
    computeNetworkStatus b ip ir = NetworkStatus.setVariables ↔ b = true := by
  cases b <;> cases ip <;> cases ir <;> simp [computeNetworkStatus]

theorem computeNetworkStatus_ne_fetchMore (b ip ir : Bool) :
    computeNetworkStatus b ip ir ≠ NetworkStatus.fetchMore := by
  cases b <;> cases ip <;> cases ir <;> simp [computeNetworkStatus]

theorem computeIsSetVariables_eq_true (pqo : Option QueryStoreValue) (spv : Bool)
    (vars : Variables) :
    computeIsSetVariables pqo spv vars = true ↔
      (spv = true ∧ ∃ pq, pqo = some pq ∧ pq.networkStatus ≠ NetworkStatus.loading ∧
        isEqual pq.variables' vars = false) := by
  cases pqo with
  | none => simp [computeIsSetVariables]
  | some pq =>
      simp [computeIsSetVariables, Bool.and_eq_true, decide_eq_true_iff, and_assoc]

theorem initRecord_networkStatus (pqo : Option QueryStoreValue) (qs : String)
    (doc : DocumentNode) (spv : Bool) (vars : Variables) (ip ir : Bool) (md : Metadata) :
    (initRecord pqo qs doc spv vars ip ir md).networkStatus =
      computeNetworkStatus (computeIsSetVariables pqo spv vars) ip ir := rfl

theorem initRecord_previousVariables (pqo : Option QueryStoreValue) (qs : String)
    (doc : DocumentNode) (spv : Bool) (vars : Variables) (ip ir : Bool) (md : Metadata) :
    (initRecord pqo qs doc spv vars ip ir md).previousVariables =
      (if computeIsSetVariables pqo spv vars then pqo.map (fun pq => pq.variables') else none) :=
  rfl

/-! ### C8 -/

/-- C8: `get(id)` immediately after `stop(id)` is absent in every state
(hence after every call sequence), `stop` is idempotent, and stopping an
untracked id leaves the table unchanged and cannot fail. -/
theorem stopQuery_spec (s : Store) (qid : String) :
    get (stopQuery s qid) qid = none ∧
    stopQuery (stopQuery s qid) qid = stopQuery s qid ∧
    (get s qid = none → stopQuery s qid = s) := by
  refine ⟨?_, ?_, ?_⟩
  · rw [stopQuery, get_storeDelete, if_pos rfl]
  · have h : get (stopQuery s qid) qid = none := by
      rw [stopQuery, get_storeDelete, if_pos rfl]
    exact storeDelete_of_get_none _ _ h
  · intro h
    exact storeDelete_of_get_none _ _ h

/-- C8 witness: instantiation of `stopQuery_spec` on concrete stores. -/
theorem stopQuery_spec_witness :
    get (stopQuery storeA "a") "a" = none ∧ stopQuery [] "b" = [] :=
  ⟨(stopQuery_spec storeA "a").1, (stopQuery_spec [] "b").2.2 rfl⟩

/-! ### C7 -/

/-- C7: `reset(activeIds)` forces status `loading` on every tracked id in
`activeIds`, leaving all its other fields unchanged, and leaves every
tracked id outside `activeIds` entirely unchanged. -/
theorem reset_spec (s : Store) (ids : List String) (k : String) :
    (ids.contains k = true →
      get (reset s ids) k =
        (get s k).map (fun q => { q with networkStatus := NetworkStatus.loading })) ∧
    (ids.contains k = false → get (reset s ids) k = get s k) := by
  constructor
  · intro h
    have hm : k ∈ ids := by simpa using h
    rw [get_reset]
    cases get s k <;> simp [hm]
  · intro h
    have hm : k ∉ ids := by simpa using h
    rw [get_reset]
    cases get s k <;> simp [hm]

/-- C7 witness: resetting `{a}` on a store holding `{a: ready, b: error}`
turns `a` to `loading` and leaves `b`'s `error` record untouched. -/
theorem reset_spec_witness :
    get (reset storeAB ["a"]) "a" =
      some { recReady with networkStatus := NetworkStatus.loading } ∧
    get (reset storeAB ["a"]) "b" =
      some { recReady with networkStatus := NetworkStatus.error } :=
  ⟨by rw [(reset_spec storeAB ["a"] "a").1 rfl]; rfl,
   by rw [(reset_spec storeAB ["a"] "b").2 rfl]; rfl⟩

/-! ### C2 -/

/-- C2: on an identifier that already has a record, `initQuery` raises the
internal-consistency error exactly when the new query string differs from
the stored one, for every status of the existing record and regardless of
every other parameter. -/
theorem initQuery_consistency_iff (s : Store) (qid qs : String) (doc : DocumentNode) (spv : Bool)
    (vars : Variables) (ip ir : Bool) (md : Metadata) (fm : Option String)
    (pq : QueryStoreValue) (h : get s qid = some pq) :
    initQuery s qid qs doc spv vars ip ir md fm = Except.error StoreError.queryStringMismatch
      ↔ pq.queryString ≠ qs := by
  constructor
  · intro hr
    by_contra hqs
    have hguard : queryStringMismatchB (get s qid) qs = false := by
      rw [h]
      simp [queryStringMismatchB, hqs]
    cases fm with
    | none =>
        rw [initQuery_ok_none s qid qs doc spv vars ip ir md hguard] at hr
        exact Except.noConfusion hr
    | some fid =>
        cases hfq : get (storeSet s qid (initRecord (get s qid) qs doc spv vars ip ir md)) fid with
        | some fq =>
            rw [initQuery_ok_some s qid qs doc spv vars ip ir md fid fq hguard hfq] at hr
            exact Except.noConfusion hr
        | none =>
            rw [initQuery_err_some s qid qs doc spv vars ip ir md fid hguard hfq] at hr
            simp at hr
  · intro hqs
    apply initQuery_mismatch
    rw [h]
    simp [queryStringMismatchB, hqs]

/-- C2 witness: instantiation of `initQuery_consistency_iff` on a
tracked record with query string `"q"` re-initialized with `"p"`. -/
theorem initQuery_consistency_iff_witness :
    (initQuery storeA "a" "p" 0 false vx1 false false 0 none =
        Except.error StoreError.queryStringMismatch) ↔ recReady.queryString ≠ "p" :=
  initQuery_consistency_iff storeA "a" "p" 0 false vx1 false false 0 none recReady rfl

/-! ### C4 -/

/-- C4: whenever the consistency guard passes, `initQuery` with a linked
id naming a tracked record returns normally and forces that record's
status to `fetchMore`, independently of the record's prior status. -/
theorem initQuery_linked_fetchMore (s : Store) (qid qs : String) (doc : DocumentNode) (spv : Bool)
    (vars : Variables) (ip ir : Bool) (md : Metadata) (L : String) (fq : QueryStoreValue)
    (hL : get s L = some fq)
    (hguard : queryStringMismatchB (get s qid) qs = false) :
    ∃ s', initQuery s qid qs doc spv vars ip ir md (some L) = Except.ok s' ∧
      statusOf s' L = some NetworkStatus.fetchMore := by
  have hfq : ∃ g, get (storeSet s qid (initRecord (get s qid) qs doc spv vars ip ir md)) L
      = some g := by
    rw [get_storeSet]
    by_cases h : L = qid
    · rw [if_pos h]
      exact ⟨_, rfl⟩
    · rw [if_neg h]
      exact ⟨fq, hL⟩
  obtain ⟨g, hg⟩ := hfq
  refine ⟨_, initQuery_ok_some s qid qs doc spv vars ip ir md L g hguard hg, ?_⟩
  rw [statusOf, get_storeSet, if_pos rfl]
  rfl

/-- C4 witness: instantiation of `initQuery_linked_fetchMore` on a fresh
id `"c"` linked to the tracked `ready` record `"a"`. -/
theorem initQuery_linked_fetchMore_witness :
    ∃ s', initQuery storeAB "c" "q" 0 false vx1 false false 0 (some "a") = Except.ok s' ∧
      statusOf s' "a" = some NetworkStatus.fetchMore :=
  initQuery_linked_fetchMore storeAB "c" "q" 0 false vx1 false false 0 "a" recReady rfl rfl

/-! ### C5 -/

/-- C5: `markQueryResult` on an untracked id leaves the table unchanged;
on a tracked id it clears `networkError` and `previousVariables`, stores
the supplied errors exactly when the result has errors (empty otherwise),
sets status `ready`, and additionally sets a tracked linked record's
status to `ready`. -/
theorem markQueryResult_spec (s : Store) (qid : String) (res : ExecResult) :
    (get s qid = none → ∀ fm, markQueryResult s qid res fm = Except.ok s) ∧
    (∀ pq, get s qid = some pq →
      (∃ s', markQueryResult s qid res none = Except.ok s' ∧
        netErrorOf s' qid = some none ∧
        gqlErrorsOf s' qid = some (if res.hasErrors then res.errors else []) ∧
        prevVarsOf s' qid = some none ∧
        statusOf s' qid = some NetworkStatus.ready) ∧
      (∀ L fq, get s L = some fq →
        ∃ s', markQueryResult s qid res (some L) = Except.ok s' ∧
          netErrorOf s' qid = some none ∧
          gqlErrorsOf s' qid = some (if res.hasErrors then res.errors else []) ∧
          prevVarsOf s' qid = some none ∧
          statusOf s' qid = some NetworkStatus.ready ∧
          statusOf s' L = some NetworkStatus.ready)) := by
  refine ⟨fun hq fm => markQueryResult_untracked s qid res fm hq, fun pq hq => ⟨?_, ?_⟩⟩
  · refine ⟨_, markQueryResult_tracked_none s qid res pq hq, ?_, ?_, ?_, ?_⟩ <;>
      simp [netErrorOf, gqlErrorsOf, prevVarsOf, statusOf, get_storeSet, resultRecord]
  · intro L fq hL
    by_cases hLq : L = qid
    · subst hLq
      have hg : get (storeSet s L (resultRecord pq res)) L = some (resultRecord pq res) := by
        rw [get_storeSet, if_pos rfl]
      refine ⟨_, markQueryResult_tracked_some s L res pq L (resultRecord pq res) hq hg,
        ?_, ?_, ?_, ?_, ?_⟩ <;>
        simp [netErrorOf, gqlErrorsOf, prevVarsOf, statusOf, get_storeSet, resultRecord]
    · have hg : get (storeSet s qid (resultRecord pq res)) L = some fq := by
        rw [get_storeSet, if_neg hLq]
        exact hL
      have hq' : ¬ qid = L := fun h3 => hLq h3.symm
      refine ⟨_, markQueryResult_tracked_some s qid res pq L fq hq hg, ?_, ?_, ?_, ?_, ?_⟩ <;>
        simp [netErrorOf, gqlErrorsOf, prevVarsOf, statusOf, get_storeSet, resultRecord,
          hLq, hq']

/-- C5 witness: instantiation of `markQueryResult_spec` on the tracked
`ready` record `"a"` with an error-carrying result linked to `"b"`. -/
theorem markQueryResult_spec_witness :
    ∃ s', markQueryResult storeAB "a" ⟨[3], true⟩ (some "b") = Except.ok s' ∧
      netErrorOf s' "a" = some none ∧
      gqlErrorsOf s' "a" = some (if (true : Bool) then [3] else []) ∧
      prevVarsOf s' "a" = some none ∧
      statusOf s' "a" = some NetworkStatus.ready ∧
      statusOf s' "b" = some NetworkStatus.ready :=
  ((markQueryResult_spec storeAB "a" ⟨[3], true⟩).2 recReady rfl).2 "b"
    { recReady with networkStatus := NetworkStatus.error } rfl

/-! ### C6 -/

/-- C6: `markQueryError` on an untracked id leaves the table unchanged;
on a tracked id it stores the supplied error and sets status `error`, and
mirrors both onto a tracked linked record when one is supplied. -/
theorem markQueryError_spec (s : Store) (qid : String) (e : NError) :
    (get s qid = none → ∀ fm, markQueryError s qid e fm = Except.ok s) ∧
    (∀ pq, get s qid = some pq →
      (∃ s', markQueryError s qid e none = Except.ok s' ∧
        netErrorOf s' qid = some (some e) ∧
        statusOf s' qid = some NetworkStatus.error) ∧
      (∀ L fq, get s L = some fq →
        ∃ s', markQueryError s qid e (some L) = Except.ok s' ∧
          netErrorOf s' qid = some (some e) ∧
          statusOf s' qid = some NetworkStatus.error ∧
          netErrorOf s' L = some (some e) ∧
          statusOf s' L = some NetworkStatus.error)) := by
  refine ⟨fun hq fm => markQueryError_untracked s qid e fm hq, fun pq hq => ⟨?_, ?_⟩⟩
  · refine ⟨_, markQueryError_tracked_none s qid e pq hq, ?_, ?_⟩ <;>
      simp [netErrorOf, statusOf, get_storeSet, errorRecord]
  · intro L fq hL
    by_cases hLq : L = qid
    · subst hLq
      have hg : get (storeSet s L (errorRecord pq e)) L = some (errorRecord pq e) := by
        rw [get_storeSet, if_pos rfl]
      refine ⟨_, markQueryError_tracked_some s L e pq L (errorRecord pq e) hq hg,
        ?_, ?_, ?_, ?_⟩ <;>
        simp [netErrorOf, statusOf, get_storeSet, errorRecord]
    · have hg : get (storeSet s qid (errorRecord pq e)) L = some fq := by
        rw [get_storeSet, if_neg hLq]
        exact hL
      have hq' : ¬ qid = L := fun h3 => hLq h3.symm
      refine ⟨_, markQueryError_tracked_some s qid e pq L fq hq hg, ?_, ?_, ?_, ?_⟩ <;>
        simp [netErrorOf, statusOf, get_storeSet, errorRecord, hLq, hq']

/-- C6 witness: instantiation of `markQueryError_spec` on the tracked
record `"a"` with error `7` linked to the tracked record `"b"`. -/
theorem markQueryError_spec_witness :
    ∃ s', markQueryError storeAB "a" 7 (some "b") = Except.ok s' ∧
      netErrorOf s' "a" = some (some 7) ∧
      statusOf s' "a" = some NetworkStatus.error ∧
      netErrorOf s' "b" = some (some 7) ∧
      statusOf s' "b" = some NetworkStatus.error :=
  ((markQueryError_spec storeAB "a" 7).2 recReady rfl).2 "b"
    { recReady with networkStatus := NetworkStatus.error } rfl

/-! ### C10 -/

theorem get_storeSet_eq_none_iff (s : Store) (k : String) (v : QueryStoreValue) (k' : String) :
    get (storeSet s k v) k' = none ↔ (¬ k' = k ∧ get s k' = none) := by
  rw [get_storeSet]
  by_cases h : k' = k <;> simp [h]

/-- C10: on the three operations carrying a linked id, the linked write
fails (by accessing the absent linked record) exactly when the linked
record does not exist at the moment of the write, and returns normally
exactly when it does: for `initQuery` the linked record is looked up
after the base record was written (so linking to the initialized id
itself cannot fail), and for the two mark operations on a tracked id it
is looked up in the updated table. -/
theorem linked_absent_access (s : Store) (L : String) :
    (∀ qid qs (doc : DocumentNode) (spv : Bool) (vars : Variables) (ip ir : Bool)
      (md : Metadata), queryStringMismatchB (get s qid) qs = false →
      ((initQuery s qid qs doc spv vars ip ir md (some L) =
          Except.error StoreError.absentLinkedRecord) ↔ (¬ L = qid ∧ get s L = none)) ∧
      (¬(¬ L = qid ∧ get s L = none) →
        ∃ s', initQuery s qid qs doc spv vars ip ir md (some L) = Except.ok s')) ∧
    (∀ qid (res : ExecResult) pq, get s qid = some pq →
      ((markQueryResult s qid res (some L) = Except.error StoreError.absentLinkedRecord) ↔
        get s L = none) ∧
      (∀ fq, get s L = some fq →
        ∃ s', markQueryResult s qid res (some L) = Except.ok s')) ∧
    (∀ qid (e : NError) pq, get s qid = some pq →
      ((markQueryError s qid e (some L) = Except.error StoreError.absentLinkedRecord) ↔
        get s L = none) ∧
      (∀ fq, get s L = some fq →
        ∃ s', markQueryError s qid e (some L) = Except.ok s')) := by
  refine ⟨?_, ?_, ?_⟩
  · intro qid qs doc spv vars ip ir md hguard
    constructor
    · constructor
      · intro he
        cases hg : get (storeSet s qid (initRecord (get s qid) qs doc spv vars ip ir md)) L with
        | some g =>
            rw [initQuery_ok_some s qid qs doc spv vars ip ir md L g hguard hg] at he
            exact Except.noConfusion he
        | none =>
            rw [get_storeSet_eq_none_iff] at hg
            exact hg
      · intro hn
        apply initQuery_err_some s qid qs doc spv vars ip ir md L hguard
        rw [get_storeSet_eq_none_iff]
        exact hn
    · intro hnot
      cases hg : get (storeSet s qid (initRecord (get s qid) qs doc spv vars ip ir md)) L with
      | none =>
          rw [get_storeSet_eq_none_iff] at hg
          exact absurd hg hnot
      | some g =>
          exact ⟨_, initQuery_ok_some s qid qs doc spv vars ip ir md L g hguard hg⟩
  · intro qid res pq hq
    constructor
    · constructor
      · intro he
        cases hg : get (storeSet s qid (resultRecord pq res)) L with
        | some g =>
            rw [markQueryResult_tracked_some s qid res pq L g hq hg] at he
            exact Except.noConfusion he
        | none =>
            rw [get_storeSet_eq_none_iff] at hg
            exact hg.2
      · intro hn
        have hne : ¬ L = qid := by
          intro h3
          rw [h3, hq] at hn
          exact Option.noConfusion hn
        apply markQueryResult_tracked_absent s qid res pq L hq
        rw [get_storeSet_eq_none_iff]
        exact ⟨hne, hn⟩
    · intro fq hfq
      cases hg : get (storeSet s qid (resultRecord pq res)) L with
      | none =>
          rw [get_storeSet_eq_none_iff] at hg
          rw [hg.2] at hfq
          exact Option.noConfusion hfq
      | some g =>
          exact ⟨_, markQueryResult_tracked_some s qid res pq L g hq hg⟩
  · intro qid e pq hq
    constructor
    · constructor
      · intro he
        cases hg : get (storeSet s qid (errorRecord pq e)) L with
        | some g =>
            rw [markQueryError_tracked_some s qid e pq L g hq hg] at he
            exact Except.noConfusion he
        | none =>
            rw [get_storeSet_eq_none_iff] at hg
            exact hg.2
      · intro hn
        have hne : ¬ L = qid := by
          intro h3
          rw [h3, hq] at hn
          exact Option.noConfusion hn
        apply markQueryError_tracked_absent s qid e pq L hq
        rw [get_storeSet_eq_none_iff]
        exact ⟨hne, hn⟩
    · intro fq hfq
      cases hg : get (storeSet s qid (errorRecord pq e)) L with
      | none =>
          rw [get_storeSet_eq_none_iff] at hg
          rw [hg.2] at hfq
          exact Option.noConfusion hfq
      | some g =>
          exact ⟨_, markQueryError_tracked_some s qid e pq L g hq hg⟩

/-- C10 witness: initializing `"c"` with linked id `"z"` (untracked)
fails with the absent-linked-record access. -/
theorem linked_absent_access_witness :
    initQuery storeA "c" "q" 0 false vx1 false false 0 (some "z") =
      Except.error StoreError.absentLinkedRecord :=
  (((linked_absent_access storeA "z").1 "c" "q" 0 false vx1 false false 0 rfl).1).mpr
    ⟨by decide, rfl⟩

/-! ### C3 -/

/-- C3 counterexample: with `storePreviousVariables = true`, a prior
`ready` record for `"a"` whose variables' `{x: 1}` differ from the new
`{x: 2}`, the call `initQuery` with linked id `"a"` (the initialized id
itself) returns a record whose status is `fetchMore`, not
`setVariables`, so the claimed "exactly when" fails. -/
theorem initQuery_setVariables_counterexample :
    get storeA "a" = some recReady ∧
    recReady.networkStatus ≠ NetworkStatus.loading ∧
    isEqual recReady.variables' vx2 = false ∧
    initQuery storeA "a" "q" 0 true vx2 false false 0 (some "a") = Except.ok storeCx3 ∧
    statusOf storeCx3 "a" ≠ some NetworkStatus.setVariables :=
  ⟨rfl, by decide, by decide, rfl, by decide⟩

/-- C3 (amended): provided the linked id is not the initialized id
itself, a returning `initQuery` yields status `setVariables` for the
initialized id exactly when `storePreviousVariables` is true, a prior
record exists, its status is not `loading`, and its variables' differ
from the new ones; in that case the new `previousVariables` equals the
prior variables' exactly; and a `loading` prior record never yields
`setVariables`. -/
theorem initQuery_setVariables_iff (s : Store) (qid qs : String) (doc : DocumentNode) (spv : Bool)
    (vars : Variables) (ip ir : Bool) (md : Metadata) (fm : Option String) (s' : Store)
    (hok : initQuery s qid qs doc spv vars ip ir md fm = Except.ok s')
    (hfm : fm ≠ some qid) :
    (statusOf s' qid = some NetworkStatus.setVariables ↔
      (spv = true ∧ ∃ pq, get s qid = some pq ∧ pq.networkStatus ≠ NetworkStatus.loading ∧
        isEqual pq.variables' vars = false)) ∧
    (∀ pq, get s qid = some pq → pq.networkStatus ≠ NetworkStatus.loading →
      isEqual pq.variables' vars = false → spv = true →
      prevVarsOf s' qid = some (some pq.variables')) ∧
    (∀ pq, get s qid = some pq → pq.networkStatus = NetworkStatus.loading →
      statusOf s' qid ≠ some NetworkStatus.setVariables) := by
  have hguard : queryStringMismatchB (get s qid) qs = false := by
    cases hb : queryStringMismatchB (get s qid) qs with
    | false => rfl
    | true =>
        rw [initQuery_mismatch s qid qs doc spv vars ip ir md fm hb] at hok
        exact Except.noConfusion hok
  have hqid : get s' qid = some (initRecord (get s qid) qs doc spv vars ip ir md) := by
    cases fm with
    | none =>
        rw [initQuery_ok_none s qid qs doc spv vars ip ir md hguard] at hok
        cases hok
        rw [get_storeSet, if_pos rfl]
    | some fid =>
        have hne : ¬ fid = qid := fun h3 => hfm (by rw [h3])
        cases hg : get (storeSet s qid (initRecord (get s qid) qs doc spv vars ip ir md)) fid with
        | none =>
            rw [initQuery_err_some s qid qs doc spv vars ip ir md fid hguard hg] at hok
            exact Except.noConfusion hok
        | some g =>
            rw [initQuery_ok_some s qid qs doc spv vars ip ir md fid g hguard hg] at hok
            cases hok
            rw [get_storeSet, if_neg (fun h3 => hne h3.symm), get_storeSet, if_pos rfl]
  refine ⟨?_, ?_, ?_⟩
  · rw [statusOf, hqid, Option.map_some', initRecord_networkStatus]
    simp only [Option.some.injEq]
    rw [computeNetworkStatus_eq_setVariables, computeIsSetVariables_eq_true]
  · intro pq hpq hnl hne hspv
    have hb : computeIsSetVariables (get s qid) spv vars = true :=
      (computeIsSetVariables_eq_true _ _ _).mpr ⟨hspv, pq, hpq, hnl, hne⟩
    rw [prevVarsOf, hqid, Option.map_some', initRecord_previousVariables, hb, if_pos rfl, hpq]
    rfl
  · intro pq hpq hl
    have hb : computeIsSetVariables (get s qid) spv vars = false := by
      rw [hpq]
      simp [computeIsSetVariables, hl]
    rw [statusOf, hqid, Option.map_some', initRecord_networkStatus, hb]
    intro hcontra
    have h2 := Option.some_inj.mp hcontra
    rw [computeNetworkStatus_eq_setVariables] at h2
    exact Bool.noConfusion h2

/-- C3 witness: instantiation of `initQuery_setVariables_iff` on the
`ready` record `"a"` re-initialized with changed variables' and no
linked id. -/
theorem initQuery_setVariables_iff_witness :
    statusOf storeW3 "a" = some NetworkStatus.setVariables ∧
    prevVarsOf storeW3 "a" = some (some recReady.variables') := by
  have h := initQuery_setVariables_iff storeA "a" "q" 0 true vx2 false false 0 none storeW3
    rfl (by simp)
  exact ⟨h.1.mpr ⟨rfl, recReady, rfl, by decide, by decide⟩,
    h.2.1 recReady rfl (by decide) (by decide) rfl⟩

/-! ### C9 -/

theorem statusOf_storeSet (s : Store) (k : String) (v : QueryStoreValue) (k' : String) :
    statusOf (storeSet s k v) k' =
      if k' = k then some v.networkStatus else statusOf s k' := by
  rw [statusOf, get_storeSet]
  by_cases h : k' = k <;> simp [h, statusOf]

/-- C9: a record whose status is `fetchMore` after a returning call, and
was not `fetchMore` before it, can only have acquired it as that call's
linked-propagation target; and the status selection of `initQuery` never
chooses `fetchMore` on its own. -/
theorem fetchMore_only_via_linked (s : Store) (op : Op) (s' : Store) (k : String)
    (hok : applyOp s op = Except.ok s')
    (hfm : statusOf s' k = some NetworkStatus.fetchMore) :
    (statusOf s k = some NetworkStatus.fetchMore ∨ opFetchMoreTarget op = some k) ∧
    ∀ (b ip ir : Bool), computeNetworkStatus b ip ir ≠ NetworkStatus.fetchMore := by
  refine ⟨?_, computeNetworkStatus_ne_fetchMore⟩
  cases op with
  | init qid qs doc spv vars ip ir md fm =>
      simp only [applyOp] at hok
      have hguard : queryStringMismatchB (get s qid) qs = false := by
        cases hb : queryStringMismatchB (get s qid) qs with
        | false => rfl
        | true =>
            rw [initQuery_mismatch s qid qs doc spv vars ip ir md fm hb] at hok
            exact Except.noConfusion hok
      cases fm with
      | none =>
          rw [initQuery_ok_none s qid qs doc spv vars ip ir md hguard] at hok
          cases hok
          rw [statusOf_storeSet] at hfm
          by_cases hk : k = qid
          · rw [if_pos hk] at hfm
            have h2 := Option.some_inj.mp hfm
            rw [initRecord_networkStatus] at h2
            exact absurd h2 (computeNetworkStatus_ne_fetchMore _ _ _)
          · rw [if_neg hk] at hfm
            exact Or.inl hfm
      | some fid =>
          by_cases hk : k = fid
          · exact Or.inr (by rw [hk]; rfl)
          · cases hg : get (storeSet s qid (initRecord (get s qid) qs doc spv vars ip ir md))
                fid with
            | none =>
                rw [initQuery_err_some s qid qs doc spv vars ip ir md fid hguard hg] at hok
                exact Except.noConfusion hok
            | some g =>
                rw [initQuery_ok_some s qid qs doc spv vars ip ir md fid g hguard hg] at hok
                cases hok
                rw [statusOf_storeSet, if_neg hk, statusOf_storeSet] at hfm
                by_cases hkq : k = qid
                · rw [if_pos hkq] at hfm
                  have h2 := Option.some_inj.mp hfm
                  rw [initRecord_networkStatus] at h2
                  exact absurd h2 (computeNetworkStatus_ne_fetchMore _ _ _)
                · rw [if_neg hkq] at hfm
                  exact Or.inl hfm
  | result qid res fm =>
      simp only [applyOp] at hok
      cases hq : get s qid with
      | none =>
          rw [markQueryResult_untracked s qid res fm hq] at hok
          cases hok
          exact Or.inl hfm
      | some pq =>
          cases fm with
          | none =>
              rw [markQueryResult_tracked_none s qid res pq hq] at hok
              cases hok
              rw [statusOf_storeSet] at hfm
              by_cases hk : k = qid
              · rw [if_pos hk] at hfm
                exact absurd (Option.some_inj.mp hfm) (by simp [resultRecord])
              · rw [if_neg hk] at hfm
                exact Or.inl hfm
          | some fid =>
              cases hg : get (storeSet s qid (resultRecord pq res)) fid with
              | none =>
                  rw [markQueryResult_tracked_absent s qid res pq fid hq hg] at hok
                  exact Except.noConfusion hok
              | some g =>
                  rw [markQueryResult_tracked_some s qid res pq fid g hq hg] at hok
                  cases hok
                  rw [statusOf_storeSet] at hfm
                  by_cases hk : k = fid
                  · rw [if_pos hk] at hfm
                    exact absurd (Option.some_inj.mp hfm) (by simp)
                  · rw [if_neg hk, statusOf_storeSet] at hfm
                    by_cases hkq : k = qid
                    · rw [if_pos hkq] at hfm
                      exact absurd (Option.some_inj.mp hfm) (by simp [resultRecord])
                    · rw [if_neg hkq] at hfm
                      exact Or.inl hfm
  | err qid e fm =>
      simp only [applyOp] at hok
      cases hq : get s qid with
      | none =>
          rw [markQueryError_untracked s qid e fm hq] at hok
          cases hok
          exact Or.inl hfm
      | some pq =>
          cases fm with
          | none =>
              rw [markQueryError_tracked_none s qid e pq hq] at hok
              cases hok
              rw [statusOf_storeSet] at hfm
              by_cases hk : k = qid
              · rw [if_pos hk] at hfm
                exact absurd (Option.some_inj.mp hfm) (by simp [errorRecord])
              · rw [if_neg hk] at hfm
                exact Or.inl hfm
          | some fid =>
              cases hg : get (storeSet s qid (errorRecord pq e)) fid with
              | none =>
                  rw [markQueryError_tracked_absent s qid e pq fid hq hg] at hok
                  exact Except.noConfusion hok
              | some g =>
                  rw [markQueryError_tracked_some s qid e pq fid g hq hg] at hok
                  cases hok
                  rw [statusOf_storeSet] at hfm
                  by_cases hk : k = fid
                  · rw [if_pos hk] at hfm
                    exact absurd (Option.some_inj.mp hfm) (by simp [errorRecord])
                  · rw [if_neg hk, statusOf_storeSet] at hfm
                    by_cases hkq : k = qid
                    · rw [if_pos hkq] at hfm
                      exact absurd (Option.some_inj.mp hfm) (by simp [errorRecord])
                    · rw [if_neg hkq] at hfm
                      exact Or.inl hfm
  | clientResult qid c =>
      simp only [applyOp] at hok
      cases hok
      cases hq : get s qid with
      | none =>
          rw [markQueryResultClient_untracked s qid c hq] at hfm
          exact Or.inl hfm
      | some q =>
          rw [markQueryResultClient_tracked s qid c q hq, statusOf_storeSet] at hfm
          by_cases hk : k = qid
          · rw [if_pos hk] at hfm
            exact absurd (Option.some_inj.mp hfm) (by cases c <;> simp [clientRecord])
          · rw [if_neg hk] at hfm
            exact Or.inl hfm
  | stop qid =>
      simp only [applyOp] at hok
      cases hok
      simp only [stopQuery, statusOf, get_storeDelete] at hfm
      by_cases hk : k = qid
      · rw [if_pos hk] at hfm
        exact absurd hfm (by simp)
      · rw [if_neg hk] at hfm
        exact Or.inl hfm
  | resetOp ids =>
      simp only [applyOp] at hok
      cases hok
      simp only [statusOf, get_reset] at hfm
      cases hq : get s k with
      | none =>
          rw [hq] at hfm
          exact absurd hfm (by simp)
      | some q =>
          rw [hq] at hfm
          simp only [Option.map_some'] at hfm
          have h2 := Option.some_inj.mp hfm
          by_cases hc : ids.contains k
          · rw [if_pos hc] at h2
            exact absurd h2 (by simp)
          · rw [if_neg hc] at h2
            exact Or.inl (by simp [statusOf, hq, h2])

/-- C9 witness: instantiation of `fetchMore_only_via_linked` on an
`initQuery` of `"c"` whose linked id `"a"` freshly acquires `fetchMore`. -/
theorem fetchMore_only_via_linked_witness :
    statusOf storeAB "a" = some NetworkStatus.fetchMore ∨
      opFetchMoreTarget (Op.init "c" "q" 0 false vx1 false false 0 (some "a")) = some "a" :=
  (fetchMore_only_via_linked storeAB (Op.init "c" "q" 0 false vx1 false false 0 (some "a"))
    storeW9 "a" rfl rfl).1

/-! ### C1 -/

/-- C1 counterexample: after the concrete sequence `opsCx1` (beginning
from the empty table) the record for `a` has a non-absent
`previousVariables` while its status is `error`, because `markQueryError`
never touches `previousVariables`; the claimed invariant fails after this
sequence. -/
theorem previousVariables_invariant_counterexample :
    runOps [] opsCx1 = Except.ok [("a", recCx1)] ∧
    recCx1.previousVariables ≠ none ∧
    recCx1.networkStatus ≠ NetworkStatus.setVariables :=
  ⟨rfl, by simp [recCx1], by simp [recCx1]⟩

/-- C1 (amended): `markQueryResult` and `markQueryResultClient` clear
`previousVariables`; `markQueryError` leaves the resolved record's
`previousVariables` exactly as it was (it does not clear it); and a
record freshly written by `initQuery` (with a linked id other than the
initialized id) has `previousVariables` non-absent exactly when its
status is `setVariables`. -/
theorem previousVariables_clearing (s : Store) (qid : String) :
    (∀ (res : ExecResult) (fm : Option String) (s' : Store),
      markQueryResult s qid res fm = Except.ok s' →
      ∀ r, get s' qid = some r → r.previousVariables = none) ∧
    (∀ (c : Bool) (r : QueryStoreValue),
      get (markQueryResultClient s qid c) qid = some r → r.previousVariables = none) ∧
    (∀ (e : NError) (fm : Option String) (s' : Store),
      markQueryError s qid e fm = Except.ok s' →
      prevVarsOf s' qid = prevVarsOf s qid) ∧
    (∀ qs (doc : DocumentNode) (spv : Bool) (vars : Variables) (ip ir : Bool)
      (md : Metadata) (fm : Option String) (s' : Store),
      initQuery s qid qs doc spv vars ip ir md fm = Except.ok s' → fm ≠ some qid →
      ∀ r, get s' qid = some r →
        (r.previousVariables ≠ none ↔ r.networkStatus = NetworkStatus.setVariables)) := by
  refine ⟨?_, ?_, ?_, ?_⟩
  · intro res fm s' hok r hr
    cases hq : get s qid with
    | none =>
        rw [markQueryResult_untracked s qid res fm hq] at hok
        cases hok
        rw [hq] at hr
        exact Option.noConfusion hr
    | some pq =>
        cases fm with
        | none =>
            rw [markQueryResult_tracked_none s qid res pq hq] at hok
            cases hok
            rw [get_storeSet, if_pos rfl] at hr
            cases hr
            rfl
        | some fid =>
            cases hg : get (storeSet s qid (resultRecord pq res)) fid with
            | none =>
                rw [markQueryResult_tracked_absent s qid res pq fid hq hg] at hok
                exact Except.noConfusion hok
            | some g =>
                rw [markQueryResult_tracked_some s qid res pq fid g hq hg] at hok
                cases hok
                rw [get_storeSet] at hr
                by_cases hk : qid = fid
                · rw [if_pos hk] at hr
                  cases hr
                  rw [← hk, get_storeSet, if_pos rfl] at hg
                  cases hg
                  rfl
                · rw [if_neg hk, get_storeSet, if_pos rfl] at hr
                  cases hr
                  rfl
  · intro c r hr
    cases hq : get s qid with
    | none =>
        rw [markQueryResultClient_untracked s qid c hq, hq] at hr
        exact Option.noConfusion hr
    | some pq =>
        rw [markQueryResultClient_tracked s qid c pq hq, get_storeSet, if_pos rfl] at hr
        cases hr
        rfl
  · intro e fm s' hok
    cases hq : get s qid with
    | none =>
        rw [markQueryError_untracked s qid e fm hq] at hok
        cases hok
        rfl
    | some pq =>
        cases fm with
        | none =>
            rw [markQueryError_tracked_none s qid e pq hq] at hok
            cases hok
            rw [prevVarsOf, prevVarsOf, get_storeSet, if_pos rfl, hq]
            rfl
        | some fid =>
            cases hg : get (storeSet s qid (errorRecord pq e)) fid with
            | none =>
                rw [markQueryError_tracked_absent s qid e pq fid hq hg] at hok
                exact Except.noConfusion hok
            | some g =>
                rw [markQueryError_tracked_some s qid e pq fid g hq hg] at hok
                cases hok
                rw [prevVarsOf, prevVarsOf, get_storeSet, hq]
                by_cases hk : qid = fid
                · rw [if_pos hk] at *
                  rw [← hk, get_storeSet, if_pos rfl] at hg
                  cases hg
                  rfl
                · rw [if_neg hk, get_storeSet, if_pos rfl]
                  rfl
  · intro qs doc spv vars ip ir md fm s' hok hfm r hr
    have hguard : queryStringMismatchB (get s qid) qs = false := by
      cases hb : queryStringMismatchB (get s qid) qs with
      | false => rfl
      | true =>
          rw [initQuery_mismatch s qid qs doc spv vars ip ir md fm hb] at hok
          exact Except.noConfusion hok
    have hqid : get s' qid = some (initRecord (get s qid) qs doc spv vars ip ir md) := by
      cases fm with
      | none =>
          rw [initQuery_ok_none s qid qs doc spv vars ip ir md hguard] at hok
          cases hok
          rw [get_storeSet, if_pos rfl]
      | some fid =>
          have hne : ¬ fid = qid := fun h3 => hfm (by rw [h3])
          cases hg : get (storeSet s qid (initRecord (get s qid) qs doc spv vars ip ir md))
              fid with
          | none =>
              rw [initQuery_err_some s qid qs doc spv vars ip ir md fid hguard hg] at hok
              exact Except.noConfusion hok
          | some g =>
              rw [initQuery_ok_some s qid qs doc spv vars ip ir md fid g hguard hg] at hok
              cases hok
              rw [get_storeSet, if_neg (fun h3 => hne h3.symm), get_storeSet, if_pos rfl]
    rw [hqid] at hr
    cases hr
    rw [initRecord_previousVariables, initRecord_networkStatus]
    cases hb : computeIsSetVariables (get s qid) spv vars with
    | true =>
        obtain ⟨hspv, pq, hpq, hrest⟩ := (computeIsSetVariables_eq_true _ _ _).mp hb
        rw [if_pos rfl, hpq, computeNetworkStatus_eq_setVariables]
        simp
    | false =>
        rw [if_neg (by simp), computeNetworkStatus_eq_setVariables]
        simp

/-- C1 witness: instantiation of `previousVariables_clearing`: a
`markQueryError` on the tracked record `"a"` leaves its
`previousVariables` unchanged. -/
theorem previousVariables_clearing_witness :
    prevVarsOf (storeSet storeA "a" (errorRecord recReady 7)) "a" = prevVarsOf storeA "a" :=
  (previousVariables_clearing storeA "a").2.2.1 7 none
    (storeSet storeA "a" (errorRecord recReady 7)) rfl

end ApolloStore
